import Mathlib

/-!
Shallow embedding of the per-container lifecycle driver in
`lxd/container_lxc.go` (operation locking, UID/GID map allocation, and the
`Update` reconfiguration path), together with theorems checking the
natural-language specification against it.

Conventions of the embedding:
* Go `map[string]string` values are association lists; lookup of a missing
  key yields `""`, matching Go's zero-value semantics.
* Go `int64` arithmetic is modelled with `Int` (the quantities involved are
  id ranges far below 2^63, and the source never relies on wraparound).
* Pointer identity of `*lxcContainerOperation` objects is modelled by a
  token freshly allocated at creation time; the heap of operation objects
  is carried explicitly so that fields of an operation remain observable
  after it leaves the registry.
* External collaborators that live outside this file's source (validation
  helpers, the cluster database, storage, liblxc) are supplied as an
  explicit environment of call results.
-/

namespace LxdModel

/-! ## Operation locking (`lxcContainerOperation`, container_lxc.go:51-115,626-674) -/

/-- One `lxcContainerOperation` object.  `err` models the `err` field
(`none` = nil error), `doneClosed` models `chanDone` having been closed,
and `cid` is the container id stored in the operation (`op.id`). -/
structure OpData where
  cid : Nat
  action : String
  reusable : Bool
  err : Option String
  doneClosed : Bool
  deriving DecidableEq, Repr

/-- Global state of the operation registry: the heap of all operation
objects ever created (keyed by an allocation token standing for the Go
pointer), the `lxcContainerOperations` map from container id to the live
operation's token, and the next fresh token. -/
structure OpWorld where
  ops : List (Nat × OpData)
  reg : List (Nat × Nat)
  nextTok : Nat
  deriving DecidableEq, Repr

/-- The empty registry (`lxcContainerOperations = make(map[...])`). -/
def OpWorld.empty : OpWorld := ⟨[], [], 0⟩

def lookupTok (w : OpWorld) (cid : Nat) : Option Nat :=
  (w.reg.lookup cid)

def lookupOp (w : OpWorld) (tok : Nat) : Option OpData :=
  (w.ops.lookup tok)

/-- Replace the heap cell of token `tok`. -/
def setOp (w : OpWorld) (tok : Nat) (od : OpData) : OpWorld :=
  { w with ops := (tok, od) :: w.ops.filter (fun p => p.1 ≠ tok) }

/-- `delete(lxcContainerOperations, id)`. -/
def regDelete (w : OpWorld) (cid : Nat) : OpWorld :=
  { w with reg := w.reg.filter (fun p => p.1 ≠ cid) }

/-- The watchdog window of the goroutine spawned in
`lxcContainerOperation.Create` (`time.After(time.Second * 30)`). -/
def watchdogSeconds : Nat := 30

/-- `op.Done(err)` (container_lxc.go:98-112): if the registry no longer
maps the operation's container id to this very object, do nothing;
otherwise record the error, close `chanDone` and remove the registry
entry. -/
def opDone (w : OpWorld) (tok : Nat) (e : Option String) : OpWorld :=
  match lookupOp w tok with
  | none => w
  | some od =>
    match lookupTok w od.cid with
    | none => w
    | some t =>
      if t = tok then
        regDelete (setOp w tok { od with err := e, doneClosed := true }) od.cid
      else
        w

/-- `op.Reset()` (container_lxc.go:83-90): only reusable operations may be
reset; a reset merely refreshes the watchdog goroutine, which has no
observable effect on the registry state. -/
def opReset (w : OpWorld) (tok : Nat) : Except String OpWorld :=
  match lookupOp w tok with
  | none => .ok w
  | some od =>
    if ¬od.reusable then .error "Can't reset a non-reusable operation"
    else .ok w

/-- The timeout branch of the watchdog goroutine spawned by
`lxcContainerOperation.Create` (container_lxc.go:68-78): when no value
arrives on `chanReset` within `watchdogSeconds` seconds, the goroutine
calls `op.Done` with the timeout error and exits. -/
def watchdogFire (w : OpWorld) (tok : Nat) : OpWorld :=
  match lookupOp w tok with
  | none => w
  | some od =>
    opDone w tok (some ("Container " ++ od.action ++
      " operation timed out after " ++ toString watchdogSeconds ++ " seconds"))

/-- `containerLXC.createOperation(action, reusable, reuse)`
(container_lxc.go:626-645).  Returns the token of the operation that the
caller holds afterwards.  When an operation is already live for the
container id: if `reuse` is requested and the live operation is reusable
it is reset and handed back, otherwise the busy error names the in-flight
action.  Otherwise a fresh operation is created, its watchdog goroutine
started, and it is registered. -/
def createOperation (w : OpWorld) (cid : Nat) (action : String)
    (reusable reuse : Bool) : Except String (OpWorld × Nat) :=
  match lookupTok w cid with
  | some tok =>
    let od := (lookupOp w tok).getD ⟨cid, "", false, none, false⟩
    if reuse && od.reusable then
      -- `op.Reset()`'s result is discarded by the source here.
      .ok (w, tok)
    else
      .error ("Container is busy running a " ++ od.action ++ " operation")
  | none =>
    let tok := w.nextTok
    let od : OpData := ⟨cid, action, reusable, none, false⟩
    .ok ({ ops := (tok, od) :: w.ops,
           reg := (cid, tok) :: w.reg,
           nextTok := w.nextTok + 1 }, tok)

/-- The operation-lock acquisition performed by `Stop`
(container_lxc.go:3350): `c.createOperation("stop", false, true)`. -/
def stopCreateOperation (w : OpWorld) (cid : Nat) : Except String (OpWorld × Nat) :=
  createOperation w cid "stop" false true

/-- The operation-lock acquisition performed by `Shutdown`
(container_lxc.go:3475): `c.createOperation("stop", true, true)`. -/
def shutdownCreateOperation (w : OpWorld) (cid : Nat) : Except String (OpWorld × Nat) :=
  createOperation w cid "stop" true true

/-- `Except` success test (used only to state theorems). -/
def exceptOk {ε α : Type} : Except ε α → Bool
  | .ok _ => true
  | .error _ => false

/-! ## Idmap allocation (`idmapSize`/`findIdmap`, container_lxc.go:676-940)

The allocator is modelled for calls whose `raw.idmap` is empty
(`parseRawIdmap("") = []`, so every `AddSafe` merge loop in the source is
vacuous), which is the situation all allocation claims are about.
Config strings that the source parses with `strconv.ParseInt` are carried
as already-parsed `Option Int` (`none` for the empty string, and for
`security.idmap.size` also for `"auto"`); boolean config strings are
carried as `Bool` (`shared.IsTrue`). -/

/-- `idmap.IdmapEntry`. -/
structure IdmapEntryM where
  isuid : Bool
  isgid : Bool
  nsid : Int
  hostid : Int
  maprange : Int
  deriving DecidableEq, Repr, Inhabited

/-- A `(base, size)` pair collected from another container's persisted
volatile state (`mapentries` holds entries with only `Hostid`/`Maprange`
set). -/
structure IdRange where
  base : Int
  size : Int
  deriving DecidableEq, Repr, Inhabited

/-- What `findIdmap` reads from one container returned by
`containerLoadAll`: its name, `IsPrivileged()`, and the expanded-config
values `security.idmap.isolated` (`IsTrue`), `volatile.idmap.base` and
`security.idmap.size`. -/
structure CtInfo where
  name : String
  privileged : Bool
  isolated : Bool
  volBase : Option Int
  sizeCfg : Option Int
  deriving DecidableEq, Repr

/-- `idmapSize` (container_lxc.go:676-703): the configured size, or 65536
for isolated containers, or the host default map's first range — which
requires the host map to have exactly two entries. -/
def idmapSize (hostIdmap : List IdmapEntryM) (isolated : Bool)
    (sizeCfg : Option Int) : Except String Int :=
  match sizeCfg with
  | none =>
    if isolated then .ok 65536
    else
      match hostIdmap with
      | [e, _] => .ok e.maprange
      | _ => .error "bad initial idmap"
  | some n => .ok n

/-- The collection loop of `findIdmap` (container_lxc.go:863-894): every
other container that is neither privileged nor non-isolated contributes
`(volatile.idmap.base or 0, idmapSize of its config)`; for these
containers `idmapSize` takes the isolated branch, i.e. the configured
size or 65536. -/
def collectEntries (cName : String) : List CtInfo → List IdRange
  | [] => []
  | ct :: rest =>
    if ct.name = cName then collectEntries cName rest
    else if ct.privileged then collectEntries cName rest
    else if !ct.isolated then collectEntries cName rest
    else ⟨ct.volBase.getD 0, ct.sizeCfg.getD 65536⟩ :: collectEntries cName rest

/-- `sort.Sort(mapentries)` with `idmap.ByHostid` (ascending `Hostid`),
modelled by insertion sort. -/
def insertByBase (e : IdRange) : List IdRange → List IdRange
  | [] => [e]
  | f :: rest => if e.base ≤ f.base then e :: f :: rest else f :: insertByBase e rest

def sortByBase : List IdRange → List IdRange
  | [] => []
  | e :: rest => insertByBase e (sortByBase rest)

/-- Iterations `i ≥ 1` of the scan loop of `findIdmap`
(container_lxc.go:898-928), with `prev = mapentries[i-1]` and the running
`offset`.  The list argument holds `mapentries[i..]`; the after-loop
check against the host map's upper bound (lines 930-937) is the `[]`
case. -/
def scanRest (size hostEnd : Int) : IdRange → Int → List IdRange → Option Int
  | _prev, offset, [] => if offset + size < hostEnd then some offset else none
  | prev, offset, e :: rest =>
    if prev.base + prev.size > offset then
      scanRest size hostEnd e (prev.base + prev.size) rest
    else if prev.base + prev.size + size < e.base then
      some (prev.base + prev.size)
    else
      scanRest size hostEnd e (e.base + e.size) rest

/-- Iteration `i = 0` of the scan loop (container_lxc.go:899-911) plus
the handoff to `scanRest`; for an empty entry list only the after-loop
host-bound check runs. -/
def scanEntries (size offset0 hostEnd : Int) : List IdRange → Option Int
  | [] => if offset0 + size < hostEnd then some offset0 else none
  | e0 :: rest =>
    if e0.base < offset0 + size then
      scanRest size hostEnd e0 (e0.base + e0.size) rest
    else
      some offset0

/-- The `mkIdmap` closure (container_lxc.go:823-837) with empty raw maps:
one uid and one gid entry mapping namespace 0 onto `[offset, offset+size)`. -/
def mkIdmap (offset size : Int) : List IdmapEntryM :=
  [⟨true, false, 0, offset, size⟩, ⟨false, true, 0, offset, size⟩]

/-- `findIdmap` (container_lxc.go:793-940) for empty `raw.idmap`.
`hostIdmap` is `state.OS.IdmapSet.Idmap` (the source indexes entry 0
unconditionally; `headI` mirrors that for nonempty host maps).  Not
isolated: share the host's map.  Isolated with a configured base: a block
at that base.  Otherwise: scan every other isolated, unprivileged
container's persisted range, sorted ascending, starting 65536 above the
host map's base. -/
def findIdmap (hostIdmap : List IdmapEntryM) (cts : List CtInfo) (cName : String)
    (isolated : Bool) (configBase : Option Int) (configSize : Option Int) :
    Except String (List IdmapEntryM × Int) :=
  if !isolated then
    .ok (hostIdmap, 0)
  else
    match idmapSize hostIdmap isolated configSize with
    | .error e => .error e
    | .ok size =>
      match configBase with
      | some offset => .ok (mkIdmap offset size, offset)
      | none =>
        let offset0 := (hostIdmap.headI).hostid + 65536
        let hostEnd := (hostIdmap.headI).hostid + (hostIdmap.headI).maprange
        match scanEntries size offset0 hostEnd (sortByBase (collectEntries cName cts)) with
        | some o => .ok (mkIdmap o size, o)
        | none => .error "Not enough uid/gid available for the container"

/-- Two host-id ranges do not intersect. -/
def RangesDisjoint (a b : IdRange) : Prop :=
  a.base + a.size ≤ b.base ∨ b.base + b.size ≤ a.base

instance : DecidableRel RangesDisjoint := fun a b => by
  unfold RangesDisjoint; infer_instance

/-- The block `[o, o+size)` does not intersect the range `e`. -/
def DisjFrom (o size : Int) (e : IdRange) : Prop :=
  o + size ≤ e.base ∨ e.base + e.size ≤ o

instance (o size : Int) (e : IdRange) : Decidable (DisjFrom o size e) := by
  unfold DisjFrom; infer_instance

/-- Position `p` starts a gap that fits a block of `size` host ids with
one spare id before the next entry (the scan's strict inter-entry gap
test). -/
def fitsIn (size p : Int) (l : List IdRange) : Prop :=
  ∀ e ∈ l, e.base + e.size ≤ p ∨ p + size < e.base

/-! ## Update (`containerLXC.Update`, container_lxc.go:4797-5938)

Go `map[string]string` configuration and device maps are association
lists; lookup of a missing key yields `""` (Go zero value).  External
collaborators called by `Update` but defined outside this source file
(`containerValidConfig`, `containerValidDevices`, the cluster database,
`initLXC`, storage, AppArmor, MAAS, and the OS-level live-apply section)
are supplied as an environment of call results (`UpdateEnv`); the
`findIdmap` call at line 5036 is likewise supplied through the
environment here and verified separately above. -/

/-- A `map[string]string` configuration. -/
abbrev Cfg := List (String × String)

/-- Go map read with zero-value default. -/
def cfgGet (c : Cfg) (k : String) : String := (c.lookup k).getD ""

/-- Go map write `m[k] = v`. -/
def cfgSet (c : Cfg) (k v : String) : Cfg :=
  (k, v) :: c.filter (fun p => p.1 ≠ k)

/-- One device: a `map[string]string` of device properties. -/
abbrev Device := List (String × String)

def devGet (d : Device) (k : String) : String := (d.lookup k).getD ""

/-- A `types.Devices` map: device name to device properties. -/
abbrev Devices := List (String × Device)

def devicesGet (ds : Devices) (name : String) : Device := (ds.lookup name).getD []

def devicesSet (ds : Devices) (name : String) (d : Device) : Devices :=
  (name, d) :: ds.filter (fun p => p.1 ≠ name)

/-- Later writes win. -/
def cfgOverride (base over : Cfg) : Cfg :=
  over.foldl (fun acc p => cfgSet acc p.1 p.2) base

/-- Modelled from the spec: `db.ProfilesExpandConfig` (the Config
Expander, spec section 2) is not part of this source file; per the spec it
merges the profiles in order and the container-local keys win. -/
def profilesExpandConfig (localConfig : Cfg) (profileConfigs : List Cfg) : Cfg :=
  cfgOverride (profileConfigs.foldl cfgOverride []) localConfig

def devicesOverride (base over : Devices) : Devices :=
  over.foldl (fun acc p => devicesSet acc p.1 p.2) base

/-- Modelled from the spec: `db.ProfilesExpandDevices`, as
`profilesExpandConfig` but for device maps. -/
def profilesExpandDevices (localDevices : Devices) (profileDevices : List Devices) : Devices :=
  devicesOverride (profileDevices.foldl devicesOverride []) localDevices

/-- Full key/value equality of two devices (devices are compared by
their whole property map). -/
def devEq (a b : Device) : Bool :=
  (a.map Prod.fst ++ b.map Prod.fst).all (fun k => devGet a k == devGet b k)

/-- Modelled from the spec: `types.Devices.Update` — the Device
Reconciler contract `Reconcile(old, new) -> (removed, added, updated)`
of spec section 4.3 (the method itself is not part of this source file):
set difference plus per-key value comparison; a device present in both
maps with identical key/value pairs is untouched, any difference
classifies it as updated.  The fourth component collects the changed
property keys of updated devices (the `updateDiff` of the source). -/
def devicesUpdate (old new : Devices) : Devices × Devices × Devices × List String :=
  let removed := old.filter (fun p => !(new.map Prod.fst).contains p.1)
  let added := new.filter (fun p => !(old.map Prod.fst).contains p.1)
  let updated := new.filter (fun p =>
    (old.map Prod.fst).contains p.1 && !devEq (devicesGet old p.1) p.2)
  let changedKeys := updated.foldr (fun p acc =>
    ((devicesGet old p.1).map Prod.fst ++ p.2.map Prod.fst).filter
      (fun k => devGet (devicesGet old p.1) k ≠ devGet p.2 k) ++ acc) []
  (removed, added, updated, changedKeys)

/-- `strings.HasPrefix`, on the character lists of the strings (the
byte-position-based `String.startsWith` of the Lean core library does not
reduce in the kernel). -/
def strHasPrefix (s p : String) : Bool := p.data.isPrefixOf s.data

/-- `strings.SplitN(s, sep, -1)` on character lists, splitting at every
separator. -/
def splitChar (sep : Char) : List Char → List (List Char)
  | [] => [[]]
  | c :: rest =>
    let r := splitChar sep rest
    if c == sep then [] :: r
    else match r with
      | h :: t => (c :: h) :: t
      | [] => [[c]]

/-- Re-join split fields with the separator; `splitChar` followed by
`joinChar` of a suffix recovers the tail that `strings.SplitN(k, ".", 3)`
would have put into its last field. -/
def joinChar (sep : Char) : List (List Char) → List Char
  | [] => []
  | [x] => x
  | x :: y :: t => x ++ sep :: joinChar sep (y :: t)

/-- `strings.ToLower` for ASCII, on the character list. -/
def strToLower (s : String) : String := ⟨s.data.map Char.toLower⟩

/-- `shared.IsTrue` (shared package, not in this source file): the
lowercased value is one of "true", "1", "yes", "on". -/
def isTrueStr (s : String) : Bool :=
  strToLower s == "true" || strToLower s == "1" || strToLower s == "yes"
    || strToLower s == "on"

/-- The in-memory container fields `Update` touches, plus the
database-persisted copies written by the final transaction
(container_lxc.go:5774-5818). -/
structure CState where
  description : String
  architecture : Int
  ephemeral : Bool
  localConfig : Cfg
  localDevices : Devices
  profiles : List String
  expandedConfig : Cfg
  expandedDevices : Devices
  expiryDate : Int
  isSnapshot : Bool
  dbConfig : Cfg
  dbDevices : Devices
  dbProfiles : List String
  deriving DecidableEq, Repr

/-- `db.ContainerArgs` as consumed by `Update`. -/
structure UpdateArgs where
  project : String
  architecture : Int
  config : Cfg
  devices : Devices
  profiles : List String
  description : String
  ephemeral : Bool
  expiryDate : Int
  deriving DecidableEq, Repr

/-- Results of the external calls `Update` makes, in source order.
`none` means the call succeeds; `some e` is its error. -/
structure UpdateEnv where
  validConfigErr : Option String
  validDevicesErr : Option String
  clusterProfilesErr : Option String
  clusterProfiles : List String
  archValid : Bool
  profilesGetErr : Option String
  profileConfigs : String → Cfg
  profileDevices : String → Devices
  validExpConfigErr : Option String
  validExpDevicesErr : Option String
  initLXCErr : Option String
  initStorageErr : Option String
  aaParseErr : Option String
  findIdmapErr : Option String
  findIdmapBase : Int
  findIdmapJson : String
  storageTypeName : String
  storageReady : Bool
  running : Bool
  parseQuotaErr : Option String
  setQuotaErr : Option String
  maasErr : Option String
  liveErr : Option String
  dbErr : Option String
  backupErr : Option String
  postErr : Option String

/-- The outcome of `Update`: the returned error (if any) and the
container state afterwards. -/
structure UpdateResult where
  err : Option String
  state : CState
  deriving Repr

/-- One pass of the read-only key check loops (container_lxc.go:4860-4868
and 4870-4878): scan `src` entries; a "volatile."/"image." key whose
value in `tgt` differs is rejected. -/
def readonlyScan (src tgt : Cfg) : Option String :=
  match src with
  | [] => none
  | (k, v) :: rest =>
    if strHasPrefix k "volatile." && cfgGet tgt k != v then
      some "Volatile keys are read-only"
    else if strHasPrefix k "image." && cfgGet tgt k != v then
      some "Image keys are read-only"
    else readonlyScan rest tgt

/-- Both read-only key loops (container_lxc.go:4858-4879): args.Config
against localConfig, then localConfig against args.Config. -/
def checkReadonlyKeys (argsConfig localConfig : Cfg) : Option String :=
  match readonlyScan argsConfig localConfig with
  | some e => some e
  | none => readonlyScan localConfig argsConfig

/-- The profile validation loop (container_lxc.go:4837-4848); the
`doesn't exist` message of the source is written without the quoted
name here. -/
def checkProfilesLoop (available checked requested : List String) : Option String :=
  match requested with
  | [] => none
  | p :: rest =>
    if !available.contains p then some ("Requested profile " ++ p ++ " does not exist")
    else if checked.contains p then some "Duplicate profile found in request"
    else checkProfilesLoop available (checked ++ [p]) rest

/-- The expanded-config diff (container_lxc.go:4974-4989): keys whose
values differ between old and new expanded config, deduplicated. -/
def configDiffKeys (old new : Cfg) : List String :=
  (old.map Prod.fst ++ new.map Prod.fst).foldl (fun acc k =>
    if cfgGet old k != cfgGet new k && !acc.contains k then acc ++ [k] else acc) []

/-- The root-disk test of the device loop at container_lxc.go:5069: a
device counts as the root disk only with type "disk", path "/" and a
non-empty pool. -/
def isRootDiskDevice (d : Device) : Bool :=
  devGet d "type" == "disk" && devGet d "path" == "/" && devGet d "pool" != ""

/-- The number of root disk devices the loop at container_lxc.go:5068
counts. -/
def rootDiskCount (ds : Devices) : Nat :=
  (ds.filter (fun p => isRootDiskDevice p.2)).length

/-- The loop of container_lxc.go:5067-5076 over the expanded devices:
a second root disk device is an error. -/
def rootDiskKeyLoop (acc : String) : Devices → Except String String
  | [] => .ok acc
  | (k, v) :: rest =>
    if isRootDiskDevice v then
      if acc != "" then .error "Containers may only have one root disk device"
      else rootDiskKeyLoop k rest
    else rootDiskKeyLoop acc rest

/-- Lines 5066-5080: exactly one root disk device must exist in the
expanded devices. -/
def newRootDiskKey (ds : Devices) : Except String String :=
  match rootDiskKeyLoop "" ds with
  | .error e => .error e
  | .ok k =>
    if k == "" then .error "Containers must have a root disk device (directly or inherited)"
    else .ok k

/-- Lines 5083-5089: the first root disk device of the old expanded
devices (empty key when none). -/
def oldRootDiskKey : Devices → String
  | [] => ""
  | (k, v) :: rest => if isRootDiskDevice v then k else oldRootDiskKey rest

/-- `netNames` of the volatile cleanup (container_lxc.go:5735-5741). -/
def netNames (expDevices : Devices) : List String :=
  (expDevices.filter (fun p =>
    devGet p.2 "type" == "nic" || devGet p.2 "type" == "infiniband")).map Prod.fst

/-- Whether the cleanup loop (container_lxc.go:5743-5771) deletes local
config key `k`: a `volatile.<device>.<name|hwaddr|host_name>` key whose
device either is no current network device or has the matching field
set. -/
def volatileCleanupKey (expDevices : Devices) (nets : List String) (k : String) : Bool :=
  if !strHasPrefix k "volatile." then false
  else
    match splitChar (Char.ofNat 46) k.data with
    | _p0 :: p1 :: p2 :: restp =>
      let f2 : String := ⟨joinChar (Char.ofNat 46) (p2 :: restp)⟩
      if !(["name", "hwaddr", "host_name"].contains f2) then false
      else if nets.contains (⟨p1⟩ : String) then
        if devGet (devicesGet expDevices ⟨p1⟩) f2 == "" then false else true
      else true
    | _ => false

/-- The cleanup applied to the local config. -/
def cleanupVolatile (expDevices : Devices) (cfg : Cfg) : Cfg :=
  cfg.filter (fun p => !volatileCleanupKey expDevices (netNames expDevices) p.1)

/-- The cleanup applied to the expanded config: the loop ranges over the
local config keys, so only keys present there are deleted. -/
def cleanupVolatileExp (expDevices : Devices) (localCfg expCfg : Cfg) : Cfg :=
  expCfg.filter (fun p =>
    !((localCfg.map Prod.fst).contains p.1
      && volatileCleanupKey expDevices (netNames expDevices) p.1))

/-- The `undoChanges` closure (container_lxc.go:4931-4951): restore the
in-memory fields captured before the changes; the persisted (db) fields
are not touched by it. -/
def updateRollback (pre cur : CState) : CState :=
  { cur with
    description := pre.description
    architecture := pre.architecture
    ephemeral := pre.ephemeral
    expandedConfig := pre.expandedConfig
    expandedDevices := pre.expandedDevices
    localConfig := pre.localConfig
    localDevices := pre.localDevices
    profiles := pre.profiles
    expiryDate := pre.expiryDate }

/-- The disk quota step (container_lxc.go:5098-5120) for changed root
disk sizes: lvm/ceph while running, or unready storage, defers via
`volatile.apply_quota`; otherwise the size is parsed and the quota set. -/
def applyQuota (sIn : CState) (oldSize newSize : String) (env : UpdateEnv) :
    Except (String × CState) CState :=
  if newSize != oldSize then
    if ((env.storageTypeName == "lvm" || env.storageTypeName == "ceph") && env.running)
        || !env.storageReady then
      .ok { sIn with localConfig := cfgSet sIn.localConfig "volatile.apply_quota" newSize }
    else
      match env.parseQuotaErr with
      | some e => .error (e, sIn)
      | none =>
        match env.setQuotaErr with
        | some e => .error (e, sIn)
        | none => .ok sIn
  else .ok sIn

/-- `Update` from the successful root-disk checks to the end
(container_lxc.go:5098-5937): quota, MAAS, the live-apply section (whose
cgroup/device/OS side effects lie outside the modelled state and which
is represented by its error result), volatile cleanup, the database
transaction persisting localConfig/profiles/localDevices, the backup
file, and the remaining notifications. -/
def updateAfterRoot (sIn : CState) (oldRootDev newRootDev : Device)
    (updateDiff : List String) (env : UpdateEnv) : Except (String × CState) CState :=
  match applyQuota sIn (devGet oldRootDev "size") (devGet newRootDev "size") env with
  | .error es => .error es
  | .ok s4 =>
  match (if !s4.isSnapshot &&
      (updateDiff.contains "maas.subnet.ipv4" || updateDiff.contains "maas.subnet.ipv6"
        || updateDiff.contains "ipv4.address" || updateDiff.contains "ipv6.address")
    then env.maasErr else none) with
  | some e => .error (e, s4)
  | none =>
  match (if env.running then env.liveErr else none) with
  | some e => .error (e, s4)
  | none =>
  let s5 := { s4 with
    localConfig := cleanupVolatile s4.expandedDevices s4.localConfig
    expandedConfig := cleanupVolatileExp s4.expandedDevices s4.localConfig s4.expandedConfig }
  match env.dbErr with
  | some e => .error ("Failed to update database: " ++ e, s5)
  | none =>
  let s6 := { s5 with
    dbConfig := s5.localConfig
    dbDevices := s5.localDevices
    dbProfiles := s5.profiles }
  match env.backupErr with
  | some e => .error ("Failed to write backup file: " ++ e, s6)
  | none =>
  match env.postErr with
  | some e => .error (e, s6)
  | none => .ok s6

/-- The mutating part of `Update` (container_lxc.go:4954-5096 plus
`updateAfterRoot`): apply the argument fields, re-expand config and
devices, diff them, validate, renegotiate the idmap when
privilege/isolation keys changed, and check the root disk device.  An
error carries the state at the failure point, to which the caller
applies `updateRollback`. -/
def updateBody (c : CState) (args : UpdateArgs) (env : UpdateEnv) :
    Except (String × CState) CState :=
  let s0 : CState := { c with
    description := args.description
    architecture := args.architecture
    ephemeral := args.ephemeral
    localConfig := args.config
    localDevices := args.devices
    profiles := args.profiles
    expiryDate := args.expiryDate }
  match (if args.profiles ≠ [] then env.profilesGetErr else none) with
  | some e => .error ("Expand config: " ++ e, s0)
  | none =>
  let s1 := { s0 with expandedConfig :=
    profilesExpandConfig s0.localConfig (args.profiles.map env.profileConfigs) }
  match (if args.profiles ≠ [] then env.profilesGetErr else none) with
  | some e => .error ("Expand devices: " ++ e, s1)
  | none =>
  let s2 := { s1 with expandedDevices :=
    profilesExpandDevices s1.localDevices (args.profiles.map env.profileDevices) }
  let changedConfig := configDiffKeys c.expandedConfig s2.expandedConfig
  let devDiff := devicesUpdate c.expandedDevices s2.expandedDevices
  match env.validExpConfigErr with
  | some e => .error ("Invalid expanded config: " ++ e, s2)
  | none =>
  match env.validExpDevicesErr with
  | some e => .error ("Invalid expanded devices: " ++ e, s2)
  | none =>
  match env.initLXCErr with
  | some e => .error ("Initialize LXC: " ++ e, s2)
  | none =>
  match env.initStorageErr with
  | some e => .error ("Initialize storage: " ++ e, s2)
  | none =>
  match (if changedConfig.contains "raw.apparmor" || changedConfig.contains "security.nesting"
      then env.aaParseErr else none) with
  | some e => .error ("Parse AppArmor profile: " ++ e, s2)
  | none =>
  let idmapKeysChanged := changedConfig.contains "security.idmap.isolated"
    || changedConfig.contains "security.idmap.base"
    || changedConfig.contains "security.idmap.size"
    || changedConfig.contains "raw.idmap"
    || changedConfig.contains "security.privileged"
  match (if idmapKeysChanged && !isTrueStr (cfgGet s2.expandedConfig "security.privileged")
      then env.findIdmapErr else none) with
  | some e => .error ("Failed to get ID map: " ++ e, s2)
  | none =>
  let lc3 := if idmapKeysChanged then
      (if isTrueStr (cfgGet s2.expandedConfig "security.privileged") then
        cfgSet (cfgSet s2.localConfig "volatile.idmap.next" "[]") "volatile.idmap.base" "0"
      else
        cfgSet (cfgSet s2.localConfig "volatile.idmap.next" env.findIdmapJson) "volatile.idmap.base" (toString env.findIdmapBase))
    else s2.localConfig
  let s3 := { s2 with localConfig := lc3 }
  match newRootDiskKey s3.expandedDevices with
  | .error e => .error (e, s3)
  | .ok newKey =>
    let oldKey := oldRootDiskKey c.expandedDevices
    if devGet (devicesGet c.expandedDevices oldKey) "pool"
        != devGet (devicesGet s3.expandedDevices newKey) "pool" then
      .error ("The storage pool of the root disk can only be changed through move", s3)
    else
      updateAfterRoot s3 (devicesGet c.expandedDevices oldKey)
        (devicesGet s3.expandedDevices newKey) devDiff.2.2.2 env

/-- The pre-mutation part of `Update` (container_lxc.go:4797-4879):
defaults, validation of the new config/devices/profiles/architecture and
the read-only key check.  No container field has been modified yet. -/
def updatePre (c : CState) (args0 : UpdateArgs) (userRequested : Bool)
    (env : UpdateEnv) : Except String UpdateArgs :=
  let args := { args0 with
    project := if args0.project == "" then "default" else args0.project
    architecture := if args0.architecture == 0 then c.architecture
      else args0.architecture }
  match env.validConfigErr with
  | some e => .error ("Invalid config: " ++ e)
  | none =>
  match env.validDevicesErr with
  | some e => .error ("Invalid devices: " ++ e)
  | none =>
  match env.clusterProfilesErr with
  | some e => .error ("Failed to get profiles: " ++ e)
  | none =>
  match checkProfilesLoop env.clusterProfiles [] args.profiles with
  | some e => .error e
  | none =>
  if args.architecture != 0 && !env.archValid then
    .error "Invalid architecture id"
  else
  match (if userRequested then checkReadonlyKeys args.config c.localConfig else none) with
  | some e => .error e
  | none => .ok args

/-- `containerLXC.Update(args, userRequested)`: validate, then mutate
under the `undoChanges` rollback closure, which restores the captured
in-memory fields on every error path. -/
def update (c : CState) (args0 : UpdateArgs) (userRequested : Bool)
    (env : UpdateEnv) : UpdateResult :=
  match updatePre c args0 userRequested env with
  | .error e => ⟨some e, c⟩
  | .ok args =>
    match updateBody c args env with
    | .error (e, st) => ⟨some e, updateRollback c st⟩
    | .ok st => ⟨none, st⟩


end LxdModel

namespace LxdClaims

open LxdModel

/-- Looking a key up after all entries with that key were filtered out
yields nothing (deleting from the registry really removes the entry). -/
theorem lookup_filter_ne {β : Type} (a : Nat) (l : List (Nat × β)) :
    List.lookup a (l.filter (fun p => !decide (p.1 = a))) = none := by
  induction l with
  | nil => rfl
  | cons h t ih =>
    by_cases hb : h.1 = a
    · simpa [List.filter_cons, hb] using ih
    · have hba : (a == h.1) = false := by
        simp [beq_iff_eq]
        exact fun he => hb he.symm
      simp [List.filter_cons, hb, List.lookup, hba]
      simpa using ih

/-- **C5.** At most one live operation exists per container id (the
registry maps each id to at most one token by construction), and a
`createOperation` call made while an operation is live for the id — with
the reuse path not applying — creates no new operation and fails with the
busy error naming the in-flight action (container_lxc.go:626-645). -/
theorem createOperation_busy (w : OpWorld) (cid : Nat) (action : String)
    (reusable reuse : Bool) (tok : Nat) (od : OpData)
    (htok : lookupTok w cid = some tok)
    (hod : lookupOp w tok = some od)
    (hnoreuse : ¬(reuse = true ∧ od.reusable = true)) :
    createOperation w cid action reusable reuse =
      .error ("Container is busy running a " ++ od.action ++ " operation") := by
  simp only [createOperation, htok, hod, Option.getD_some]
  rw [if_neg]
  simp only [Bool.and_eq_true]
  exact fun h => hnoreuse ⟨h.1, h.2⟩

/-- Witness for `createOperation_busy`: a "start" operation is live for
container 7; a stop request that asks for reuse still gets the busy
error because the live operation is not reusable. -/
theorem createOperation_busy_witness :
    createOperation ⟨[(0, ⟨7, "start", false, none, false⟩)], [(7, 0)], 1⟩
        7 "stop" false true =
      .error ("Container is busy running a " ++ "start" ++ " operation") :=
  createOperation_busy _ 7 "stop" false true 0 ⟨7, "start", false, none, false⟩
    rfl rfl (by decide)

/-- **C6.** An operation that is created and whose watchdog then fires
(the `time.After(30s)` branch of the goroutine in
`lxcContainerOperation.Create`, taken when neither `Done` nor `Reset`
arrives within the window) is force-failed with the timeout error and
removed from the registry, so a subsequent `createOperation` on the same
container id succeeds. -/
theorem watchdog_force_fails (w : OpWorld) (cid : Nat) (action : String)
    (reusable reuse : Bool) (w' : OpWorld) (tok : Nat)
    (hfresh : lookupTok w cid = none)
    (hc : createOperation w cid action reusable reuse = .ok (w', tok)) :
    lookupOp (watchdogFire w' tok) tok =
      some ⟨cid, action, reusable,
        some ("Container " ++ action ++ " operation timed out after " ++
          toString watchdogSeconds ++ " seconds"), true⟩
    ∧ lookupTok (watchdogFire w' tok) cid = none
    ∧ exceptOk (createOperation (watchdogFire w' tok) cid action reusable reuse) = true := by
  simp only [createOperation, hfresh] at hc
  obtain ⟨hw, ht⟩ : _ ∧ w.nextTok = tok := by
    simpa [Prod.ext_iff] using hc
  subst ht
  subst hw
  have hreg : lookupTok
      ({ ops := (w.nextTok, (⟨cid, action, reusable, none, false⟩ : OpData)) :: w.ops,
         reg := (cid, w.nextTok) :: w.reg, nextTok := w.nextTok + 1 } : OpWorld) cid
      = some w.nextTok := by
    simp [lookupTok, List.lookup]
  refine ⟨?_, ?_, ?_⟩ <;>
    simp [watchdogFire, opDone, lookupOp, lookupTok, List.lookup, setOp, regDelete,
      hfresh, lookup_filter_ne, createOperation, exceptOk]

/-- Witness for `watchdog_force_fails`: create a "start" operation for
container 5 in the empty registry and let the watchdog fire. -/
theorem watchdog_force_fails_witness :
    lookupOp (watchdogFire
        ⟨[(0, ⟨5, "start", false, none, false⟩)], [(5, 0)], 1⟩ 0) 0 =
      some ⟨5, "start", false,
        some ("Container " ++ "start" ++ " operation timed out after " ++
          toString watchdogSeconds ++ " seconds"), true⟩
    ∧ lookupTok (watchdogFire
        ⟨[(0, ⟨5, "start", false, none, false⟩)], [(5, 0)], 1⟩ 0) 5 = none
    ∧ exceptOk (createOperation (watchdogFire
        ⟨[(0, ⟨5, "start", false, none, false⟩)], [(5, 0)], 1⟩ 0)
          5 "start" false false) = true :=
  watchdog_force_fails OpWorld.empty 5 "start" false false
    ⟨[(0, ⟨5, "start", false, none, false⟩)], [(5, 0)], 1⟩ 0 rfl rfl

/-- **C7.** `Done` is idempotent: when the registry's stored operation for
the container id is no longer this operation, `Done` leaves the world
(registry, stored error, done-signal) unchanged, and calling `Done` a
second time — with any error value — has no further effect
(container_lxc.go:98-112). -/
theorem opDone_idempotent (w : OpWorld) (tok : Nat) (e e' : Option String)
    (od : OpData)
    (hod : lookupOp w tok = some od)
    (hstale : lookupTok w od.cid ≠ some tok) :
    opDone w tok e = w ∧ opDone (opDone w tok e) tok e' = opDone w tok e := by
  have hnoop : ∀ e₀ : Option String, opDone w tok e₀ = w := by
    intro e₀
    simp only [opDone, hod]
    cases hreg : lookupTok w od.cid with
    | none => rfl
    | some t =>
      have ht : t ≠ tok := fun h => hstale (h ▸ hreg)
      simp [ht]
  exact ⟨hnoop e, by rw [hnoop e, hnoop e']⟩

/-- Witness for `opDone_idempotent`: the heap holds operation token 0 for
container 7, but the registry already points at a newer token 1. -/
theorem opDone_idempotent_witness :
    opDone ⟨[(0, ⟨7, "stop", false, none, false⟩)], [(7, 1)], 2⟩ 0 (some "x") =
      ⟨[(0, ⟨7, "stop", false, none, false⟩)], [(7, 1)], 2⟩
    ∧ opDone (opDone ⟨[(0, ⟨7, "stop", false, none, false⟩)], [(7, 1)], 2⟩
        0 (some "x")) 0 none =
      opDone ⟨[(0, ⟨7, "stop", false, none, false⟩)], [(7, 1)], 2⟩ 0 (some "x") :=
  opDone_idempotent ⟨[(0, ⟨7, "stop", false, none, false⟩)], [(7, 1)], 2⟩
    0 (some "x") none ⟨7, "stop", false, none, false⟩ rfl (by decide)

/-- **C3 (counterexample).** `Stop` passes `reusable=false` when creating
its operation (container_lxc.go:3350), so a second `Stop` while the first
stop operation is still in flight does **not** collapse into it: it gets
the busy error instead. -/
theorem stop_reuse_counterexample :
    stopCreateOperation OpWorld.empty 1 =
      .ok (⟨[(0, ⟨1, "stop", false, none, false⟩)], [(1, 0)], 1⟩, 0)
    ∧ stopCreateOperation ⟨[(0, ⟨1, "stop", false, none, false⟩)], [(1, 0)], 1⟩ 1 =
      .error ("Container is busy running a " ++ "stop" ++ " operation") :=
  ⟨rfl, rfl⟩

/-- **C3 (amended).** `Stop` requests reuse (`reuse=true`), so when the
in-flight stop operation is *reusable* — as created by `Shutdown`, which
passes `reusable=true` — the second call collapses into it via `Reset`,
returning the existing operation with the registry unchanged; but the
operation `Stop` itself creates is non-reusable, so a `Stop` racing a
Stop-initiated stop gets the busy error. -/
theorem stop_collapse (w : OpWorld) (cid tok : Nat) (od : OpData)
    (htok : lookupTok w cid = some tok)
    (hod : lookupOp w tok = some od) :
    stopCreateOperation w cid =
      if od.reusable then .ok (w, tok)
      else .error ("Container is busy running a " ++ od.action ++ " operation") := by
  simp only [stopCreateOperation, createOperation, htok, hod, Option.getD_some,
    Bool.true_and]

/-- Witness for `stop_collapse`: a reusable stop operation (as created by
`Shutdown`) is in flight for container 1; `Stop` collapses into it. -/
theorem stop_collapse_witness :
    stopCreateOperation ⟨[(0, ⟨1, "stop", true, none, false⟩)], [(1, 0)], 1⟩ 1 =
      if (⟨1, "stop", true, none, false⟩ : OpData).reusable
      then .ok (⟨[(0, ⟨1, "stop", true, none, false⟩)], [(1, 0)], 1⟩, 0)
      else .error ("Container is busy running a " ++
        (⟨1, "stop", true, none, false⟩ : OpData).action ++ " operation") :=
  stop_collapse ⟨[(0, ⟨1, "stop", true, none, false⟩)], [(1, 0)], 1⟩ 1 0
    ⟨1, "stop", true, none, false⟩ rfl rfl

end LxdClaims

namespace LxdClaims

open LxdModel List

/-- Inserting into the sorted prefix is a permutation of consing. -/
theorem insertByBase_perm (e : IdRange) (l : List IdRange) :
    insertByBase e l ~ e :: l := by
  induction l with
  | nil => rfl
  | cons f rest ih =>
    unfold insertByBase
    by_cases h : e.base ≤ f.base
    · rw [if_pos h]
    · rw [if_neg h]
      calc f :: insertByBase e rest ~ f :: e :: rest := ih.cons f
        _ ~ e :: f :: rest := List.Perm.swap e f rest

/-- `sortByBase` permutes its input. -/
theorem sortByBase_perm (l : List IdRange) : sortByBase l ~ l := by
  induction l with
  | nil => rfl
  | cons e rest ih =>
    calc sortByBase (e :: rest) ~ e :: sortByBase rest := insertByBase_perm e _
      _ ~ e :: rest := ih.cons e

theorem mem_insertByBase {a e : IdRange} {l : List IdRange} :
    a ∈ insertByBase e l ↔ a = e ∨ a ∈ l := by
  rw [(insertByBase_perm e l).mem_iff, List.mem_cons]

/-- `sortByBase` sorts by ascending base. -/
theorem sortByBase_sorted (l : List IdRange) :
    List.Pairwise (fun a b => a.base ≤ b.base) (sortByBase l) := by
  induction l with
  | nil => exact List.Pairwise.nil
  | cons e rest ih =>
    show List.Pairwise _ (insertByBase e (sortByBase rest))
    generalize hs : sortByBase rest = s at ih
    clear hs
    induction s with
    | nil => simp [insertByBase]
    | cons f t iht =>
      unfold insertByBase
      by_cases h : e.base ≤ f.base
      · rw [if_pos h]
        refine List.Pairwise.cons ?_ ih
        intro b hb
        rcases List.mem_cons.mp hb with rfl | hb'
        · exact h
        · exact le_trans h ((List.pairwise_cons.mp ih).1 b hb')
      · rw [if_neg h]
        have hfe : f.base ≤ e.base := le_of_not_le h
        refine List.Pairwise.cons ?_ (iht (List.pairwise_cons.mp ih).2)
        intro b hb
        rcases mem_insertByBase.mp hb with rfl | hb'
        · exact hfe
        · exact (List.pairwise_cons.mp ih).1 b hb'

/-- A list that is sorted by base and pairwise disjoint, with positive
sizes, is an increasing chain of ranges. -/
theorem sorted_disjoint_chain (l : List IdRange)
    (hsorted : List.Pairwise (fun a b => a.base ≤ b.base) l)
    (hdisj : List.Pairwise RangesDisjoint l)
    (hpos : ∀ e ∈ l, 0 < e.size) :
    List.Pairwise (fun a b => a.base + a.size ≤ b.base) l := by
  refine (hsorted.and hdisj).imp_of_mem ?_
  intro a b _ hb hab
  rcases hab with ⟨hle, hd | hd⟩
  · exact hd
  · have := hpos b hb
    omega

/-- Invariant of iterations `i ≥ 1` of the scan loop: entered with
`offset = prev.end` and the remaining entries a disjoint chain above
`prev.end`, a successful scan returns an offset at or above `prev.end`
whose block avoids every remaining entry, and no position in
`[prev.end, result)` fits a block with a spare id. -/
theorem scanRest_go (size hostEnd : Int) (l : List IdRange) :
    ∀ (prev : IdRange) (o : Int),
    (∀ e ∈ l, prev.base + prev.size ≤ e.base) →
    List.Pairwise (fun a b => a.base + a.size ≤ b.base) l →
    (∀ e ∈ l, 0 < e.size) →
    scanRest size hostEnd prev (prev.base + prev.size) l = some o →
    prev.base + prev.size ≤ o ∧ (∀ e ∈ l, DisjFrom o size e) ∧
      ∀ p, prev.base + prev.size ≤ p → p < o → ¬ fitsIn size p l := by
  induction l with
  | nil =>
    intro prev o _ _ _ hscan
    unfold scanRest at hscan
    by_cases h : prev.base + prev.size + size < hostEnd
    · rw [if_pos h] at hscan
      obtain rfl := Option.some.inj hscan
      exact ⟨le_refl _, fun e he => absurd he (List.not_mem_nil e),
        fun p hp hlt _ => absurd (lt_of_le_of_lt hp hlt) (lt_irrefl _)⟩
    · rw [if_neg h] at hscan
      cases hscan
  | cons e rest ih =>
    intro prev o hge hchain hpos hscan
    unfold scanRest at hscan
    rw [if_neg (lt_irrefl _)] at hscan
    have hepos : 0 < e.size := hpos e (List.mem_cons_self _ _)
    by_cases h2 : prev.base + prev.size + size < e.base
    · rw [if_pos h2] at hscan
      obtain rfl := Option.some.inj hscan
      refine ⟨le_refl _, ?_, ?_⟩
      · intro f hf
        rcases List.mem_cons.mp hf with rfl | hf'
        · exact Or.inl (by omega)
        · have he1 : e.base + e.size ≤ f.base := (List.pairwise_cons.mp hchain).1 f hf'
          exact Or.inl (by omega)
      · exact fun p hp hlt _ => absurd (lt_of_le_of_lt hp hlt) (lt_irrefl _)
    · rw [if_neg h2] at hscan
      have hge' := (List.pairwise_cons.mp hchain).1
      have hchain' := (List.pairwise_cons.mp hchain).2
      have hpos' : ∀ f ∈ rest, 0 < f.size := fun f hf => hpos f (List.mem_cons_of_mem _ hf)
      obtain ⟨hle, hdisj, hmin⟩ := ih e o hge' hchain' hpos' hscan
      have hprevle : prev.base + prev.size ≤ e.base := hge e (List.mem_cons_self _ _)
      refine ⟨by omega, ?_, ?_⟩
      · intro f hf
        rcases List.mem_cons.mp hf with rfl | hf'
        · exact Or.inr (by omega)
        · exact hdisj f hf'
      · intro p hp hplt hfits
        by_cases hpe : e.base + e.size ≤ p
        · exact hmin p hpe hplt (fun f hf => hfits f (List.mem_cons_of_mem _ hf))
        · rcases hfits e (List.mem_cons_self _ _) with hblk | hblk
          · exact hpe hblk
          · omega

/-- The full scan loop on a disjoint chain: a successful result avoids
every entry, and no position in `[offset0, result)` fits a block with a
spare id. -/
theorem scanEntries_go (size offset0 hostEnd : Int) (l : List IdRange)
    (hchain : List.Pairwise (fun a b => a.base + a.size ≤ b.base) l)
    (hpos : ∀ e ∈ l, 0 < e.size) (o : Int)
    (hscan : scanEntries size offset0 hostEnd l = some o) :
    (∀ e ∈ l, DisjFrom o size e) ∧
      ∀ p, offset0 ≤ p → p < o → ¬ fitsIn size p l := by
  cases l with
  | nil =>
    simp only [scanEntries] at hscan
    by_cases h : offset0 + size < hostEnd
    · rw [if_pos h] at hscan
      obtain rfl := Option.some.inj hscan
      exact ⟨fun e he => absurd he (List.not_mem_nil e),
        fun p hp hlt _ => absurd (lt_of_le_of_lt hp hlt) (lt_irrefl _)⟩
    · rw [if_neg h] at hscan
      cases hscan
  | cons e0 rest =>
    simp only [scanEntries] at hscan
    have he0pos : 0 < e0.size := hpos e0 (List.mem_cons_self _ _)
    by_cases h0 : e0.base < offset0 + size
    · rw [if_pos h0] at hscan
      have hge' := (List.pairwise_cons.mp hchain).1
      have hchain' := (List.pairwise_cons.mp hchain).2
      have hpos' : ∀ f ∈ rest, 0 < f.size := fun f hf => hpos f (List.mem_cons_of_mem _ hf)
      obtain ⟨hle, hdisj, hmin⟩ := scanRest_go size hostEnd rest e0 o hge' hchain' hpos' hscan
      refine ⟨?_, ?_⟩
      · intro f hf
        rcases List.mem_cons.mp hf with rfl | hf'
        · exact Or.inr hle
        · exact hdisj f hf'
      · intro p hp hplt hfits
        by_cases hpe : e0.base + e0.size ≤ p
        · exact hmin p hpe hplt (fun f hf => hfits f (List.mem_cons_of_mem _ hf))
        · rcases hfits e0 (List.mem_cons_self _ _) with hblk | hblk
          · exact hpe hblk
          · omega
    · rw [if_neg h0] at hscan
      obtain rfl := Option.some.inj hscan
      push_neg at h0
      refine ⟨?_, fun p hp hplt _ => absurd (lt_of_le_of_lt hp hplt) (lt_irrefl _)⟩
      intro f hf
      rcases List.mem_cons.mp hf with rfl | hf'
      · exact Or.inl h0
      · have h1 := (List.pairwise_cons.mp hchain).1 f hf'
        exact Or.inl (by omega)

/-- A container passing the collection loop's filters contributes its
persisted `(base, size)` pair. -/
theorem mem_collectEntries (cName : String) (cts : List CtInfo) (B : CtInfo)
    (hB : B ∈ cts) (hname : B.name ≠ cName) (hpriv : B.privileged = false)
    (hiso : B.isolated = true) :
    (⟨B.volBase.getD 0, B.sizeCfg.getD 65536⟩ : IdRange) ∈ collectEntries cName cts := by
  induction cts with
  | nil => cases hB
  | cons ct rest ih =>
    rcases List.mem_cons.mp hB with rfl | hB'
    · unfold collectEntries
      rw [if_neg hname, if_neg (by simp [hpriv]), if_neg (by simp [hiso])]
      exact List.mem_cons_self _ _
    · unfold collectEntries
      by_cases h1 : ct.name = cName
      · rw [if_pos h1]; exact ih hB'
      · rw [if_neg h1]
        by_cases h2 : ct.privileged
        · rw [if_pos h2]; exact ih hB'
        · rw [if_neg h2]
          by_cases h3 : (!ct.isolated) = true
          · rw [if_pos h3]; exact ih hB'
          · rw [if_neg h3]; exact List.mem_cons_of_mem _ (ih hB')

/-- For isolated containers `idmapSize` is the configured size, default
65536. -/
theorem idmapSize_isolated (hostIdmap : List IdmapEntryM) (sizeCfg : Option Int) :
    idmapSize hostIdmap true sizeCfg = .ok (sizeCfg.getD 65536) := by
  cases sizeCfg <;> rfl

end LxdClaims

namespace LxdClaims

open LxdModel

/-- A successful isolated, no-configured-base `findIdmap` is exactly a
successful scan, and returns the scanned offset's uid/gid block. -/
theorem findIdmap_isolated_scan
    (hostIdmap : List IdmapEntryM) (cts : List CtInfo) (cName : String)
    (configSize : Option Int) (s : List IdmapEntryM) (o : Int)
    (hok : findIdmap hostIdmap cts cName true none configSize = .ok (s, o)) :
    scanEntries (configSize.getD 65536) (hostIdmap.headI.hostid + 65536)
      (hostIdmap.headI.hostid + hostIdmap.headI.maprange)
      (sortByBase (collectEntries cName cts)) = some o
    ∧ s = mkIdmap o (configSize.getD 65536) := by
  simp only [findIdmap, Bool.not_true, idmapSize_isolated] at hok
  rw [if_neg (by decide)] at hok
  cases hscan : scanEntries (configSize.getD 65536) (hostIdmap.headI.hostid + 65536)
      (hostIdmap.headI.hostid + hostIdmap.headI.maprange)
      (sortByBase (collectEntries cName cts)) with
  | none =>
    rw [hscan] at hok
    exact Except.noConfusion hok
  | some o' =>
    rw [hscan] at hok
    simp only [Except.ok.injEq, Prod.mk.injEq] at hok
    obtain ⟨h1, h2⟩ := hok
    subst h2
    exact ⟨rfl, h1.symm⟩

/-- **C2 (counterexample).** With host map base 100000 and two other
isolated, unprivileged containers whose *persisted* ranges already
overlap each other — "b" at `[165536, 365536)` and "c" at
`[200000, 200010)` — `findIdmap` for container "a" succeeds with offset
200010, whose block `[200010, 265546)` overlaps container "b"'s
persisted range.  The claim quantifies over every pair of containers
with persisted ranges and is false at this state. -/
theorem findIdmap_overlap_counterexample :
    findIdmap
      [⟨true, false, 0, 100000, 1000000000⟩, ⟨false, true, 0, 100000, 1000000000⟩]
      [⟨"b", false, true, some 165536, some 200000⟩,
       ⟨"c", false, true, some 200000, some 10⟩]
      "a" true none none = .ok (mkIdmap 200010 65536, 200010)
    ∧ ¬ DisjFrom 200010 65536 ⟨165536, 200000⟩ :=
  ⟨rfl, by decide⟩

/-- **C2 (amended).** Provided the persisted ranges of the other
isolated, non-privileged containers are pairwise disjoint and have
positive sizes, a successful `findIdmap` for an isolated container with
no configured base returns a host-id block `[o, o+size)` that does not
overlap the persisted range of any other isolated, non-privileged
container. -/
theorem findIdmap_disjoint
    (hostIdmap : List IdmapEntryM) (cts : List CtInfo) (cName : String)
    (configSize : Option Int) (s : List IdmapEntryM) (o : Int) (B : CtInfo)
    (hdisj : List.Pairwise RangesDisjoint (collectEntries cName cts))
    (hpos : ∀ e ∈ collectEntries cName cts, 0 < e.size)
    (hok : findIdmap hostIdmap cts cName true none configSize = .ok (s, o))
    (hB : B ∈ cts) (hBname : B.name ≠ cName) (hBpriv : B.privileged = false)
    (hBiso : B.isolated = true) :
    DisjFrom o (configSize.getD 65536) ⟨B.volBase.getD 0, B.sizeCfg.getD 65536⟩ := by
  obtain ⟨hscan, _⟩ := findIdmap_isolated_scan hostIdmap cts cName configSize s o hok
  have hperm := sortByBase_perm (collectEntries cName cts)
  have hsym : Symmetric RangesDisjoint := fun a b h => Or.symm h
  have hdisj' : List.Pairwise RangesDisjoint (sortByBase (collectEntries cName cts)) :=
    (hperm.pairwise_iff @hsym).mpr hdisj
  have hpos' : ∀ e ∈ sortByBase (collectEntries cName cts), 0 < e.size :=
    fun e he => hpos e (hperm.mem_iff.mp he)
  have hchain := sorted_disjoint_chain _ (sortByBase_sorted _) hdisj' hpos'
  obtain ⟨hall, _⟩ := scanEntries_go _ _ _ _ hchain hpos' o hscan
  exact hall _ (hperm.mem_iff.mpr (mem_collectEntries cName cts B hB hBname hBpriv hBiso))

/-- Witness for `findIdmap_disjoint`: one other isolated container with
persisted range `[165536, 231072)`; the allocator returns 231072, which
is disjoint from it. -/
theorem findIdmap_disjoint_witness :
    DisjFrom 231072 65536 ⟨165536, 65536⟩ :=
  findIdmap_disjoint
    [⟨true, false, 0, 100000, 1000000000⟩, ⟨false, true, 0, 100000, 1000000000⟩]
    [⟨"b", false, true, some 165536, some 65536⟩] "a" none
    (mkIdmap 231072 65536) 231072 ⟨"b", false, true, some 165536, some 65536⟩
    (by decide) (by decide) rfl (by decide) (by decide) rfl rfl

/-- **C4 (counterexample).** Host map base 100000; containers "b" and
"c" hold `[165536, 231072)` and `[296608, 362144)`, leaving the gap
`[231072, 296608)` of exactly 65536 ids — a gap of at least `configSize`
at or after the host's default-map base, as the claim's first-fit rule
requires.  The scan skips it (the inter-entry test demands strictly more
than `configSize`) and returns 362144 instead; it also starts scanning at
host base + 65536, not at the host base.  The claim's quoted failure
message also differs from the source's
"Not enough uid/gid available for the container". -/
theorem findIdmap_firstfit_counterexample :
    findIdmap
      [⟨true, false, 0, 100000, 1000000000⟩, ⟨false, true, 0, 100000, 1000000000⟩]
      [⟨"b", false, true, some 165536, some 65536⟩,
       ⟨"c", false, true, some 296608, some 65536⟩]
      "a" true none none = .ok (mkIdmap 362144 65536, 362144)
    ∧ (∀ e ∈ collectEntries "a"
        [⟨"b", false, true, some 165536, some 65536⟩,
         ⟨"c", false, true, some 296608, some 65536⟩],
        DisjFrom 231072 65536 e)
    ∧ (100000 : Int) ≤ 231072 ∧ (231072 : Int) < 362144 :=
  ⟨rfl, by decide, by decide, by decide⟩

/-- **C4 (amended).** For an isolated container with no configured base
and pairwise-disjoint, positive other ranges, a successful `findIdmap`
performs first-fit allocation with a strict gap rule: it returns the
uid/gid block of the first offset `o` at which a block of `configSize`
avoids every other container's range, where every candidate position `p`
from hostBase+65536 (not the host base itself) up to `o` fails to fit a
block with one spare id — exact-size gaps between two allocated ranges
are skipped.  On failure the error is
"Not enough uid/gid available for the container". -/
theorem findIdmap_first_fit
    (hostIdmap : List IdmapEntryM) (cts : List CtInfo) (cName : String)
    (configSize : Option Int) (s : List IdmapEntryM) (o : Int)
    (hdisj : List.Pairwise RangesDisjoint (collectEntries cName cts))
    (hpos : ∀ e ∈ collectEntries cName cts, 0 < e.size)
    (hok : findIdmap hostIdmap cts cName true none configSize = .ok (s, o)) :
    s = mkIdmap o (configSize.getD 65536)
    ∧ (∀ e ∈ collectEntries cName cts, DisjFrom o (configSize.getD 65536) e)
    ∧ ∀ p, hostIdmap.headI.hostid + 65536 ≤ p → p < o →
        ¬ fitsIn (configSize.getD 65536) p (collectEntries cName cts) := by
  obtain ⟨hscan, hs⟩ := findIdmap_isolated_scan hostIdmap cts cName configSize s o hok
  have hperm := sortByBase_perm (collectEntries cName cts)
  have hsym : Symmetric RangesDisjoint := fun a b h => Or.symm h
  have hdisj' : List.Pairwise RangesDisjoint (sortByBase (collectEntries cName cts)) :=
    (hperm.pairwise_iff @hsym).mpr hdisj
  have hpos' : ∀ e ∈ sortByBase (collectEntries cName cts), 0 < e.size :=
    fun e he => hpos e (hperm.mem_iff.mp he)
  have hchain := sorted_disjoint_chain _ (sortByBase_sorted _) hdisj' hpos'
  obtain ⟨hall, hmin⟩ := scanEntries_go _ _ _ _ hchain hpos' o hscan
  refine ⟨hs, fun e he => hall e (hperm.mem_iff.mpr he), ?_⟩
  intro p hp hplt hfits
  exact hmin p hp hplt (fun e he => hfits e (hperm.mem_iff.mp he))

/-- Witness for `findIdmap_first_fit`: one other isolated container at
`[200000, 265536)`; the allocator returns 265536 and no position from
165536 up to it fits. -/
theorem findIdmap_first_fit_witness :
    mkIdmap 265536 65536 = mkIdmap 265536 ((none : Option Int).getD 65536)
    ∧ (∀ e ∈ collectEntries "a" [⟨"d", false, true, some 200000, some 65536⟩],
        DisjFrom 265536 ((none : Option Int).getD 65536) e)
    ∧ ∀ p, (([⟨true, false, 0, 100000, 1000000000⟩,
          ⟨false, true, 0, 100000, 1000000000⟩] : List IdmapEntryM).headI.hostid
            + 65536 ≤ p) → p < 265536 →
        ¬ fitsIn ((none : Option Int).getD 65536) p
          (collectEntries "a" [⟨"d", false, true, some 200000, some 65536⟩]) :=
  findIdmap_first_fit
    [⟨true, false, 0, 100000, 1000000000⟩, ⟨false, true, 0, 100000, 1000000000⟩]
    [⟨"d", false, true, some 200000, some 65536⟩] "a" none
    (mkIdmap 265536 65536) 265536 (by decide) (by decide) rfl

end LxdClaims

namespace LxdClaims

open LxdModel

/-- A successful association-list lookup comes from a member pair. -/
theorem lookup_mem {α β : Type} [BEq α] [LawfulBEq α] {l : List (α × β)}
    {k : α} {v : β} (h : l.lookup k = some v) : (k, v) ∈ l := by
  induction l with
  | nil => cases h
  | cons q rest ih =>
    simp only [List.lookup] at h
    cases hq : (k == q.1) with
    | true =>
      rw [hq] at h
      obtain rfl := Option.some.inj h
      have : k = q.1 := eq_of_beq hq
      subst this
      exact List.mem_cons_self _ _
    | false =>
      rw [hq] at h
      exact List.mem_cons_of_mem _ (ih h)

/-- In a map with no duplicate keys, a member pair is what lookup finds. -/
theorem lookup_of_mem_nodup {α β : Type} [BEq α] [LawfulBEq α]
    {l : List (α × β)} {p : α × β}
    (hmem : p ∈ l) (hnd : (l.map Prod.fst).Nodup) : l.lookup p.1 = some p.2 := by
  induction l with
  | nil => cases hmem
  | cons q rest ih =>
    rcases List.mem_cons.mp hmem with rfl | hm
    · simp [List.lookup]
    · have hne : (p.1 == q.1) = false := by
        have hq : q.1 ∉ rest.map Prod.fst := (List.nodup_cons.mp (by simpa using hnd)).1
        have : p.1 ∈ rest.map Prod.fst := List.mem_map_of_mem Prod.fst hm
        rw [beq_eq_false_iff_ne]
        exact fun he => hq (he ▸ this)
      simp only [List.lookup, hne]
      exact ih hm (List.nodup_cons.mp (by simpa using hnd)).2

/-- A device always equals itself under full key/value comparison. -/
theorem devEq_refl (d : Device) : devEq d d = true := by
  simp [devEq, List.all_eq_true]

/-- Membership makes `contains` true. -/
theorem contains_of_mem {l : List String} {a : String} (h : a ∈ l) :
    l.contains a = true := by
  exact List.elem_eq_true_of_mem h

/-- **C8.** The device diff applied by `Update`
(`oldExpandedDevices.Update(c.expandedDevices)`, container_lxc.go:4992)
is idempotent: reconciling a device set against itself yields empty
removed, added and updated sets (device maps have no duplicate names). -/
theorem reconcile_self (X : Devices) (hnd : (X.map Prod.fst).Nodup) :
    (devicesUpdate X X).1 = [] ∧ (devicesUpdate X X).2.1 = []
      ∧ (devicesUpdate X X).2.2.1 = [] := by
  refine ⟨?_, ?_, ?_⟩
  · simp only [devicesUpdate]
    rw [List.filter_eq_nil_iff]
    intro p hp
    simp only [Bool.not_eq_true, Bool.not_eq_false]
    simp
    exact ⟨p.2, hp⟩
  · simp only [devicesUpdate]
    rw [List.filter_eq_nil_iff]
    intro p hp
    simp only [Bool.not_eq_true, Bool.not_eq_false]
    simp
    exact ⟨p.2, hp⟩
  · simp only [devicesUpdate]
    rw [List.filter_eq_nil_iff]
    intro p hp
    have hget : devicesGet X p.1 = p.2 := by
      simp [devicesGet, lookup_of_mem_nodup hp hnd]
    simp [hget, devEq_refl]

/-- Witness for `reconcile_self`: a two-device map. -/
theorem reconcile_self_witness :
    (devicesUpdate
      [("root", [("type","disk"),("path","/"),("pool","default")]),
       ("eth0", [("type","nic"),("nictype","bridged")])]
      [("root", [("type","disk"),("path","/"),("pool","default")]),
       ("eth0", [("type","nic"),("nictype","bridged")])]).1 = []
    ∧ (devicesUpdate
      [("root", [("type","disk"),("path","/"),("pool","default")]),
       ("eth0", [("type","nic"),("nictype","bridged")])]
      [("root", [("type","disk"),("path","/"),("pool","default")]),
       ("eth0", [("type","nic"),("nictype","bridged")])]).2.1 = []
    ∧ (devicesUpdate
      [("root", [("type","disk"),("path","/"),("pool","default")]),
       ("eth0", [("type","nic"),("nictype","bridged")])]
      [("root", [("type","disk"),("path","/"),("pool","default")]),
       ("eth0", [("type","nic"),("nictype","bridged")])]).2.2.1 = [] :=
  reconcile_self
    [("root", [("type","disk"),("path","/"),("pool","default")]),
     ("eth0", [("type","nic"),("nictype","bridged")])] (by decide)

end LxdClaims

namespace LxdClaims

open LxdModel

/-- Any error produced by one read-only scan pass is one of the two
read-only messages. -/
theorem readonlyScan_range (a : Cfg) (b : Cfg) (m : String)
    (h : readonlyScan a b = some m) :
    m = "Volatile keys are read-only" ∨ m = "Image keys are read-only" := by
  induction a with
  | nil => cases h
  | cons q rest ih =>
    obtain ⟨k, v⟩ := q
    simp only [readonlyScan] at h
    by_cases h1 : (strHasPrefix k "volatile." && cfgGet b k != v) = true
    · rw [if_pos h1] at h
      exact Or.inl (Option.some.inj h).symm
    · rw [if_neg h1] at h
      by_cases h2 : (strHasPrefix k "image." && cfgGet b k != v) = true
      · rw [if_pos h2] at h
        exact Or.inr (Option.some.inj h).symm
      · rw [if_neg h2] at h
        exact ih h

/-- A scan pass finds some violation when one of its entries is a
"volatile."/"image." key whose value differs in the other map. -/
theorem readonlyScan_mem (a : Cfg) (b : Cfg) (p : String × String)
    (hp : p ∈ a)
    (hpre : strHasPrefix p.1 "volatile." = true ∨ strHasPrefix p.1 "image." = true)
    (hne : cfgGet b p.1 ≠ p.2) :
    ∃ m, readonlyScan a b = some m := by
  induction a with
  | nil => cases hp
  | cons q rest ih =>
    obtain ⟨k, v⟩ := q
    simp only [readonlyScan]
    by_cases h1 : (strHasPrefix k "volatile." && cfgGet b k != v) = true
    · exact ⟨_, by rw [if_pos h1]⟩
    · rw [if_neg h1]
      by_cases h2 : (strHasPrefix k "image." && cfgGet b k != v) = true
      · exact ⟨_, by rw [if_pos h2]⟩
      · rw [if_neg h2]
        rcases List.mem_cons.mp hp with heq | hm
        · exfalso
          subst heq
          have hbne : (cfgGet b k != v) = true := by
            simpa [bne_iff_ne] using hne
          rcases hpre with hv | hi
          · exact h1 (by rw [show strHasPrefix k "volatile." = true from hv, hbne]; rfl)
          · exact h2 (by rw [show strHasPrefix k "image." = true from hi, hbne]; rfl)
        · exact ih hm

/-- The combined read-only check (both loop directions) rejects any
"volatile."/"image." key whose zero-value-defaulted lookup differs
between the two configurations. -/
theorem checkReadonlyKeys_some (a : Cfg) (b : Cfg) (k : String)
    (hpre : strHasPrefix k "volatile." = true ∨ strHasPrefix k "image." = true)
    (hne : cfgGet a k ≠ cfgGet b k) :
    ∃ m, checkReadonlyKeys a b = some m ∧
      (m = "Volatile keys are read-only" ∨ m = "Image keys are read-only") := by
  by_cases hva : cfgGet a k = ""
  · have hvb : cfgGet b k ≠ "" := fun h => hne (hva.trans h.symm)
    have hlb : b.lookup k = some (cfgGet b k) := by
      unfold cfgGet at hvb ⊢
      cases hl : b.lookup k with
      | none => rw [hl] at hvb; simp at hvb
      | some v => rfl
    have hmem := lookup_mem hlb
    unfold checkReadonlyKeys
    cases hs : readonlyScan a b with
    | some m => exact ⟨m, rfl, readonlyScan_range _ _ _ hs⟩
    | none =>
      obtain ⟨m, hm⟩ := readonlyScan_mem b a (k, cfgGet b k) hmem hpre
        (fun h => hne (h : cfgGet a k = cfgGet b k))
      exact ⟨m, hm, readonlyScan_range _ _ _ hm⟩
  · have hla : a.lookup k = some (cfgGet a k) := by
      unfold cfgGet at hva ⊢
      cases hl : a.lookup k with
      | none => rw [hl] at hva; simp at hva
      | some v => rfl
    have hmem := lookup_mem hla
    obtain ⟨m, hm⟩ := readonlyScan_mem a b (k, cfgGet a k) hmem hpre
      (fun h => hne (h.symm : cfgGet a k = cfgGet b k))
    unfold checkReadonlyKeys
    rw [hm]
    exact ⟨m, rfl, readonlyScan_range _ _ _ hm⟩

end LxdClaims

namespace LxdClaims

open LxdModel

/-- **C9 (amended).** With `userRequested=true`, if any config key
beginning with "volatile." or "image." differs between the supplied
config and the existing local config under Go's zero-value map lookup —
in either direction; a key added or removed with a non-empty value
always differs in this sense — then `Update` fails with "Volatile keys
are read-only" or "Image keys are read-only" before any container field
is modified (the hypotheses state that the config, device and profile
validations preceding the check pass). -/
theorem update_readonly_guard (c : CState) (args0 : UpdateArgs) (env : UpdateEnv)
    (k : String)
    (h1 : env.validConfigErr = none) (h2 : env.validDevicesErr = none)
    (h3 : env.clusterProfilesErr = none)
    (h4 : checkProfilesLoop env.clusterProfiles [] args0.profiles = none)
    (h5 : env.archValid = true)
    (hpre : strHasPrefix k "volatile." = true ∨ strHasPrefix k "image." = true)
    (hne : cfgGet args0.config k ≠ cfgGet c.localConfig k) :
    (update c args0 true env).state = c ∧
      ((update c args0 true env).err = some "Volatile keys are read-only" ∨
       (update c args0 true env).err = some "Image keys are read-only") := by
  obtain ⟨m, hm, hrange⟩ := checkReadonlyKeys_some args0.config c.localConfig k hpre hne
  have hres : update c args0 true env = ⟨some m, c⟩ := by
    unfold update updatePre
    simp only [h1, h2, h3, h4, h5, hm]
    simp
  rw [hres]
  exact ⟨rfl, by rcases hrange with h | h <;> [left; right] <;> simp [h]⟩

/-- Witness for `update_readonly_guard`: the request drops the existing
`volatile.v` key (value "a"), so the check fires. -/
theorem update_readonly_guard_witness :
    (update ⟨"", 0, false, [("volatile.v", "a")], [], [], [], [], 0, false, [], [], []⟩
        ⟨"", 0, [], [], [], "", false, 0⟩ true
        ⟨none, none, none, [], true, none, fun _ => [], fun _ => [],
         none, none, none, none, none, none, 0, "[]", "dir", true, false,
         none, none, none, none, none, none, none⟩).state =
      ⟨"", 0, false, [("volatile.v", "a")], [], [], [], [], 0, false, [], [], []⟩
    ∧ ((update ⟨"", 0, false, [("volatile.v", "a")], [], [], [], [], 0, false, [], [], []⟩
        ⟨"", 0, [], [], [], "", false, 0⟩ true
        ⟨none, none, none, [], true, none, fun _ => [], fun _ => [],
         none, none, none, none, none, none, 0, "[]", "dir", true, false,
         none, none, none, none, none, none, none⟩).err =
          some "Volatile keys are read-only" ∨
      (update ⟨"", 0, false, [("volatile.v", "a")], [], [], [], [], 0, false, [], [], []⟩
        ⟨"", 0, [], [], [], "", false, 0⟩ true
        ⟨none, none, none, [], true, none, fun _ => [], fun _ => [],
         none, none, none, none, none, none, 0, "[]", "dir", true, false,
         none, none, none, none, none, none, none⟩).err =
          some "Image keys are read-only") :=
  update_readonly_guard
    ⟨"", 0, false, [("volatile.v", "a")], [], [], [], [], 0, false, [], [], []⟩
    ⟨"", 0, [], [], [], "", false, 0⟩
    ⟨none, none, none, [], true, none, fun _ => [], fun _ => [],
     none, none, none, none, none, none, 0, "[]", "dir", true, false,
     none, none, none, none, none, none, none⟩
    "volatile.v" rfl rfl rfl rfl rfl (Or.inl (by decide)) (by decide)

/-- **C9 (counterexample).** A `volatile.` key *added* with the empty
string as value does not trigger the read-only check (Go map lookup
returns the zero value "" for the missing key, so the comparison at
container_lxc.go:4861 sees equal values): here `args.Config` adds key
"volatile.x" absent from the local config, yet `Update` with
`userRequested=true` succeeds, refuting the claim for added/removed
keys with empty values. -/
theorem update_readonly_counterexample :
    ("volatile.x" ∈ (⟨"", 1, [("volatile.x", "")],
        [("root", [("type","disk"),("path","/"),("pool","default")])], [],
        "", false, 0⟩ : UpdateArgs).config.map Prod.fst)
    ∧ ("volatile.x" ∉ (⟨"", 1, false, [],
        [("root", [("type","disk"),("path","/"),("pool","default")])], [], [],
        [("root", [("type","disk"),("path","/"),("pool","default")])], 0, false,
        [], [("root", [("type","disk"),("path","/"),("pool","default")])],
        []⟩ : CState).localConfig.map Prod.fst)
    ∧ strHasPrefix "volatile.x" "volatile." = true
    ∧ (update
        ⟨"", 1, false, [],
         [("root", [("type","disk"),("path","/"),("pool","default")])], [], [],
         [("root", [("type","disk"),("path","/"),("pool","default")])], 0, false,
         [], [("root", [("type","disk"),("path","/"),("pool","default")])], []⟩
        ⟨"", 1, [("volatile.x", "")],
         [("root", [("type","disk"),("path","/"),("pool","default")])], [],
         "", false, 0⟩ true
        ⟨none, none, none, [], true, none, fun _ => [], fun _ => [],
         none, none, none, none, none, none, 0, "[]", "dir", true, false,
         none, none, none, none, none, none, none⟩).err = none := by
  refine ⟨by decide, by decide, by decide, by decide⟩

end LxdClaims

namespace LxdClaims

open LxdModel

/-- When no expanded device passes the root-disk test, the loop leaves
the accumulator untouched. -/
theorem rootDiskKeyLoop_ok_of_none (ds : Devices) : ∀ acc : String,
    (∀ p ∈ ds, ¬(isRootDiskDevice p.2 = true)) → rootDiskKeyLoop acc ds = .ok acc := by
  induction ds with
  | nil => intro acc _; rfl
  | cons q rest ih =>
    intro acc h
    obtain ⟨k, v⟩ := q
    have hq : ¬(isRootDiskDevice v = true) := h (k, v) (List.mem_cons_self _ _)
    simp only [rootDiskKeyLoop]
    rw [if_neg hq]
    exact ih acc (fun p hp => h p (List.mem_cons_of_mem _ hp))

/-- With zero counted root disk devices the check fails with the
must-have error. -/
theorem newRootDiskKey_none_error (ds : Devices)
    (h : ∀ p ∈ ds, ¬(isRootDiskDevice p.2 = true)) :
    newRootDiskKey ds =
      .error "Containers must have a root disk device (directly or inherited)" := by
  unfold newRootDiskKey
  rw [rootDiskKeyLoop_ok_of_none ds "" h]
  rfl

/-- **C10.** `Update` counts a device as a root disk device only when
its type is "disk", its path is "/" *and* its pool key is non-empty
(container_lxc.go:5069).  When every device of the expanded set fails
that test — in particular when path-"/" disk devices are present but
their pool is empty — the root-disk check fails with "Containers must
have a root disk device (directly or inherited)", and the rollback
closure leaves the container state as it was.  The `none`/`true`
hypotheses state that the external calls preceding the check succeed. -/
theorem update_rootdisk_pool_required (c : CState) (args0 : UpdateArgs) (u : Bool)
    (env : UpdateEnv)
    (h1 : env.validConfigErr = none) (h2 : env.validDevicesErr = none)
    (h3 : env.clusterProfilesErr = none)
    (h4 : checkProfilesLoop env.clusterProfiles [] args0.profiles = none)
    (h5 : env.archValid = true)
    (hro : checkReadonlyKeys args0.config c.localConfig = none)
    (hpg : env.profilesGetErr = none)
    (hvec : env.validExpConfigErr = none) (hved : env.validExpDevicesErr = none)
    (hlxc : env.initLXCErr = none) (hsto : env.initStorageErr = none)
    (haa : env.aaParseErr = none) (hidm : env.findIdmapErr = none)
    (hall : ∀ p ∈ profilesExpandDevices args0.devices
        (args0.profiles.map env.profileDevices), ¬(isRootDiskDevice p.2 = true))
    (_hsome : ∃ p ∈ profilesExpandDevices args0.devices
        (args0.profiles.map env.profileDevices),
        devGet p.2 "type" = "disk" ∧ devGet p.2 "path" = "/") :
    update c args0 u env =
      ⟨some "Containers must have a root disk device (directly or inherited)", c⟩ := by
  have hroot := newRootDiskKey_none_error _ hall
  unfold update updatePre
  simp only [h1, h2, h3, h4, h5, hro]
  simp only [ite_self, Bool.not_true, Bool.and_false, Bool.false_eq_true, if_false]
  simp only [updateBody, hpg, hvec, hved, hlxc, hsto, haa, hidm, ite_self]
  simp only [hroot]
  split
  · rfl
  · rfl

/-- Witness for `update_rootdisk_pool_required`: the only device is a
path-"/" disk with no pool; the check still rejects the update. -/
theorem update_rootdisk_pool_required_witness :
    update ⟨"", 0, false, [], [("root", [("type","disk"),("path","/")])], [], [],
        [("root", [("type","disk"),("path","/")])], 0, false, [], [], []⟩
      ⟨"", 0, [], [("root", [("type","disk"),("path","/")])], [], "", false, 0⟩
      false
      ⟨none, none, none, [], true, none, fun _ => [], fun _ => [],
       none, none, none, none, none, none, 0, "[]", "dir", true, false,
       none, none, none, none, none, none, none⟩ =
    ⟨some "Containers must have a root disk device (directly or inherited)",
     ⟨"", 0, false, [], [("root", [("type","disk"),("path","/")])], [], [],
      [("root", [("type","disk"),("path","/")])], 0, false, [], [], []⟩⟩ :=
  update_rootdisk_pool_required
    ⟨"", 0, false, [], [("root", [("type","disk"),("path","/")])], [], [],
     [("root", [("type","disk"),("path","/")])], 0, false, [], [], []⟩
    ⟨"", 0, [], [("root", [("type","disk"),("path","/")])], [], "", false, 0⟩
    false
    ⟨none, none, none, [], true, none, fun _ => [], fun _ => [],
     none, none, none, none, none, none, 0, "[]", "dir", true, false,
     none, none, none, none, none, none, none⟩
    rfl rfl rfl rfl rfl rfl rfl rfl rfl rfl rfl rfl rfl
    (by decide) (by decide)

end LxdClaims

namespace LxdClaims

open LxdModel

theorem rootDiskCount_cons (q : String × Device) (rest : Devices) :
    rootDiskCount (q :: rest) =
      (if isRootDiskDevice q.2 then 1 else 0) + rootDiskCount rest := by
  unfold rootDiskCount
  by_cases h : isRootDiskDevice q.2 = true
  · simp [List.filter_cons, h]
    omega
  · simp [List.filter_cons, h]

/-- Once a root disk key is recorded, any further root disk device makes
the loop fail. -/
theorem rootDiskKeyLoop_busy (ds : Devices) : ∀ acc : String,
    acc ≠ "" → 1 ≤ rootDiskCount ds →
    rootDiskKeyLoop acc ds = .error "Containers may only have one root disk device" := by
  induction ds with
  | nil => intro acc _ h; simp [rootDiskCount] at h
  | cons q rest ih =>
    intro acc hacc hone
    obtain ⟨k, v⟩ := q
    simp only [rootDiskKeyLoop]
    by_cases hr : isRootDiskDevice v = true
    · rw [if_pos hr]
      have : (acc != "") = true := by simpa [bne_iff_ne] using hacc
      rw [if_pos this]
    · rw [if_neg hr]
      refine ih acc hacc ?_
      have := rootDiskCount_cons (k, v) rest
      simp [hr] at this
      omega

/-- Two or more counted root disk devices (with non-empty names) make
the loop fail. -/
theorem rootDiskKeyLoop_two (ds : Devices) : ∀ acc : String,
    (∀ p ∈ ds, p.1 ≠ "") → 2 ≤ rootDiskCount ds →
    rootDiskKeyLoop acc ds = .error "Containers may only have one root disk device" := by
  induction ds with
  | nil => intro acc _ h; simp [rootDiskCount] at h
  | cons q rest ih =>
    intro acc hnames htwo
    obtain ⟨k, v⟩ := q
    simp only [rootDiskKeyLoop]
    have hcc := rootDiskCount_cons (k, v) rest
    by_cases hr : isRootDiskDevice v = true
    · rw [if_pos hr]
      simp [hr] at hcc
      by_cases hacc : acc = ""
      · have : (acc != "") = false := by simp [hacc]
        rw [this, if_neg (by simp)]
        refine rootDiskKeyLoop_busy rest k ?_ ?_
        · exact hnames (k, v) (List.mem_cons_self _ _)
        · omega
      · have : (acc != "") = true := by simpa [bne_iff_ne] using hacc
        rw [if_pos this]
    · rw [if_neg hr]
      simp [hr] at hcc
      exact ih acc (fun p hp => hnames p (List.mem_cons_of_mem _ hp)) (by omega)

theorem count_zero_all_not (ds : Devices) (h : rootDiskCount ds = 0) :
    ∀ p ∈ ds, ¬(isRootDiskDevice p.2 = true) := by
  intro p hp hr
  unfold rootDiskCount at h
  rw [List.length_eq_zero] at h
  have : p ∈ ds.filter (fun p => isRootDiskDevice p.2) :=
    List.mem_filter.mpr ⟨hp, hr⟩
  rw [h] at this
  cases this

/-- Zero or two-plus counted root disk devices make the root-disk check
fail with one of its two errors. -/
theorem newRootDiskKey_ne_one (ds : Devices) (hnames : ∀ p ∈ ds, p.1 ≠ "")
    (hcount : rootDiskCount ds ≠ 1) :
    ∃ e, newRootDiskKey ds = .error e := by
  rcases Nat.lt_or_ge (rootDiskCount ds) 1 with h | h
  · have h0 : rootDiskCount ds = 0 := by omega
    exact ⟨_, newRootDiskKey_none_error ds (count_zero_all_not ds h0)⟩
  · have h2 : 2 ≤ rootDiskCount ds := by omega
    refine ⟨"Containers may only have one root disk device", ?_⟩
    unfold newRootDiskKey
    rw [rootDiskKeyLoop_two ds "" hnames h2]

/-- A successful `updatePre` passes the config, devices and profiles of
the request through unchanged (only project and architecture get
defaults). -/
theorem updatePre_ok_fields (c : CState) (a : UpdateArgs) (u : Bool)
    (env : UpdateEnv) (args : UpdateArgs)
    (h : updatePre c a u env = .ok args) :
    args.config = a.config ∧ args.devices = a.devices ∧ args.profiles = a.profiles := by
  simp only [updatePre] at h
  repeat' split at h
  all_goals try (cases h)
  all_goals exact ⟨rfl, rfl, rfl⟩

/-- Whatever the environment does, a root-disk count other than one
makes the mutating part of `Update` fail at or before the root-disk
check, at a state whose rollback is the original container state (the
database fields are untouched on every such path). -/
theorem updateBody_root_invalid (c : CState) (args : UpdateArgs) (env : UpdateEnv)
    (hnames : ∀ p ∈ profilesExpandDevices args.devices
        (args.profiles.map env.profileDevices), p.1 ≠ "")
    (hcount : rootDiskCount (profilesExpandDevices args.devices
        (args.profiles.map env.profileDevices)) ≠ 1) :
    ∃ e st, updateBody c args env = .error (e, st) ∧ updateRollback c st = c := by
  obtain ⟨e0, hroot⟩ := newRootDiskKey_ne_one _ hnames hcount
  simp only [updateBody]
  repeat' split
  all_goals first
    | exact ⟨_, _, rfl, rfl⟩
    | (exfalso; simp_all)

/-- **C1.** For every `Update(args, userRequested)` call whose resulting
expanded device set contains zero, or two or more, root disk devices
(devices having non-empty names, as device maps do), `Update` returns an
error and the container's configuration is unchanged afterwards: the
in-memory local/expanded config and devices are restored by the rollback
closure, and the new devices are never persisted — the database fields
still hold their old values.  This holds for every outcome of the
external calls. -/
theorem update_root_disk_invariant (c : CState) (args0 : UpdateArgs) (u : Bool)
    (env : UpdateEnv)
    (hnames : ∀ p ∈ profilesExpandDevices args0.devices
        (args0.profiles.map env.profileDevices), p.1 ≠ "")
    (hcount : rootDiskCount (profilesExpandDevices args0.devices
        (args0.profiles.map env.profileDevices)) ≠ 1) :
    ((update c args0 u env).err).isSome = true ∧ (update c args0 u env).state = c := by
  unfold update
  cases hpre : updatePre c args0 u env with
  | error e => simp
  | ok args =>
    obtain ⟨hc, hd, hp⟩ := updatePre_ok_fields c args0 u env args hpre
    have hnames2 : ∀ p ∈ profilesExpandDevices args.devices
        (args.profiles.map env.profileDevices), p.1 ≠ "" := by
      rw [hd, hp]; exact hnames
    have hcount2 : rootDiskCount (profilesExpandDevices args.devices
        (args.profiles.map env.profileDevices)) ≠ 1 := by
      rw [hd, hp]; exact hcount
    obtain ⟨e, st, hbody, hroll⟩ := updateBody_root_invalid c args env hnames2 hcount2
    simp [hbody, hroll]

/-- Witness for `update_root_disk_invariant`: a request whose expanded
device set is empty (zero root disks). -/
theorem update_root_disk_invariant_witness :
    ((update ⟨"d", 2, false, [("a","b")], [("x", [("type","nic")])], [],
        [("a","b")], [("x", [("type","nic")])], 5, false, [("a","b")],
        [("x", [("type","nic")])], []⟩
      ⟨"", 0, [], [], [], "", false, 0⟩ false
      ⟨none, none, none, [], true, none, fun _ => [], fun _ => [],
       none, none, none, none, none, none, 0, "[]", "dir", true, false,
       none, none, none, none, none, none, none⟩).err).isSome = true
    ∧ (update ⟨"d", 2, false, [("a","b")], [("x", [("type","nic")])], [],
        [("a","b")], [("x", [("type","nic")])], 5, false, [("a","b")],
        [("x", [("type","nic")])], []⟩
      ⟨"", 0, [], [], [], "", false, 0⟩ false
      ⟨none, none, none, [], true, none, fun _ => [], fun _ => [],
       none, none, none, none, none, none, 0, "[]", "dir", true, false,
       none, none, none, none, none, none, none⟩).state =
      ⟨"d", 2, false, [("a","b")], [("x", [("type","nic")])], [],
       [("a","b")], [("x", [("type","nic")])], 5, false, [("a","b")],
       [("x", [("type","nic")])], []⟩ :=
  update_root_disk_invariant
    ⟨"d", 2, false, [("a","b")], [("x", [("type","nic")])], [],
     [("a","b")], [("x", [("type","nic")])], 5, false, [("a","b")],
     [("x", [("type","nic")])], []⟩
    ⟨"", 0, [], [], [], "", false, 0⟩ false
    ⟨none, none, none, [], true, none, fun _ => [], fun _ => [],
     none, none, none, none, none, none, 0, "[]", "dir", true, false,
     none, none, none, none, none, none, none⟩
    (by decide) (by decide)

end LxdClaims
